import Mathlib

/-!
# Resource-management dashboard: verified model of the custom-page store,
# byte formatting, and the filter-expression engine

Shallow embedding of the core of the dashboard repository:

* the custom-pages context (`src/unnamed/part_014`, `CustomPagesContext`):
  pages, widgets, layout items and the mutation operations
  `addPage`, `removePage`, `addWidgetToPage`, `removeWidgetFromPage`,
  `updatePageLayout`, `copyWidget`, `updatePageTitle`, `updateWidgetTitle`,
  `importPage`;
* the byte formatter `formatBytes` and the size-column `sortComparator`
  of `src/src/components/Tables/S3BucketsTable.tsx`;
* the filter-expression engine `evaluateFilterExpression` of the same file,
  which concatenates per-token pieces into a JavaScript expression string and
  evaluates it with `new Function`; the embedding models the JavaScript
  lexing (maximal-munch merging of adjacent boolean literals into one
  identifier), parsing (with `&&` binding tighter than `||`, and call
  expressions such as `false(true)`), and short-circuit evaluation
  (`ReferenceError` on evaluated identifiers, `TypeError` on calls).

Nondeterministic id generation (`Math.random().toString(36).substr(2, 9)`)
is modelled by passing the generated id(s) explicitly; freshness of those
ids appears as an explicit hypothesis where a theorem needs it.
-/

namespace Dashboard

/-- Model of `WidgetType` from `CustomPage.tsx`: closed enumeration of widget kinds. -/
inductive WidgetType
  | text
  | inventory
  | pieChart
  | s3Buckets
deriving DecidableEq, Repr

/-- The `y` coordinate of a layout slot: either a concrete row or the
JavaScript `Infinity` sentinel used by the store to mean "append at the
bottom of the grid". -/
inductive YCoord
  | at (row : Int)
  | bottom
deriving DecidableEq, Repr

/-- Model of `Widget` from `CustomPage.tsx` (`{id, title, type, isHeart?}`).

The store's `addWidgetToPage` in `part_014` additionally attaches
`x`/`y`/`w`/`h` properties to the widget object it creates, beyond the
declared interface, and `importPage` reads an untyped `filters` payload off
imported widgets; these extra, optional properties are modelled as `Option`
fields that are `none` when the underlying JavaScript property is absent. -/
structure Widget where
  id : String
  title : String
  type : WidgetType
  isHeart : Option Bool := none
  x : Option Int := none
  y : Option YCoord := none
  w : Option Int := none
  h : Option Int := none
  filters : Option String := none
deriving DecidableEq, Repr

/-- Model of a `Layout` item of react-grid-layout as used by the store:
`{i (widget id), x, y, w, h}`. -/
structure LayoutItem where
  i : String
  x : Int
  y : YCoord
  w : Int
  h : Int
deriving DecidableEq, Repr

/-- Model of `CustomPage` from `part_014`: `{id, title, widgets, layout}`. -/
structure CustomPage where
  id : String
  title : String
  widgets : List Widget
  layout : List LayoutItem
deriving DecidableEq, Repr

/-! ## JavaScript string primitives

The built-in `String.trim`, `String.toLower` and substring search are
modelled on character lists so that proofs can evaluate them. -/

/-- Substring occurrence test on character lists: `hay.includes(sub)`. -/
def containsList : List Char → List Char → Bool
  | [], sub => sub.isEmpty
  | c :: t, sub => sub.isPrefixOf (c :: t) || containsList t sub

/-- JavaScript `String.prototype.trim`. -/
def jsTrim (s : String) : String :=
  String.mk
    (((s.data.dropWhile Char.isWhitespace).reverse.dropWhile
        Char.isWhitespace).reverse)

/-- JavaScript `String.prototype.toLowerCase` (ASCII range, which covers
the repository's field values and filter inputs). -/
def jsToLower (s : String) : String := String.mk (s.data.map Char.toLower)

/-- JavaScript `String.prototype.includes`: `hay.includes(sub)`. -/
def jsIncludes (hay sub : String) : Bool := containsList hay.data sub.data

/-! ## The custom-pages store operations (`part_014`)

Each operation is the function passed to `setPages` applied to the current
`pages` value.  Where the source draws a fresh random id, the id is an
explicit argument (placed first). -/

/-- Operation `addPage(title)`: appends a page with empty `widgets`/`layout`. -/
def addPage (newId : String) (title : String) (pages : List CustomPage) :
    List CustomPage :=
  pages ++ [{ id := newId, title := title, widgets := [], layout := [] }]

/-- Operation `removePage(id)`: keeps the pages whose id differs. -/
def removePage (id : String) (pages : List CustomPage) : List CustomPage :=
  pages.filter (fun page => page.id != id)

/-- Operation `addWidgetToPage(pageId, type, title, isHeart = false)`: on the matching
page, appends a widget carrying the fresh id and the default slot, and the
corresponding layout entry `{i := widgetId, x := (layout.length * 2) % 12,
y := Infinity, w := 6, h := 4}`.  The source performs no validation of
`title` here; the blank-title guard lives in the view (`handleAddWidget`). -/
def addWidgetToPage (widgetId : String) (pageId : String) (type : WidgetType)
    (title : String) (isHeart : Bool) (pages : List CustomPage) :
    List CustomPage :=
  pages.map (fun page =>
    if page.id == pageId then
      let newWidget : Widget :=
        { id := widgetId, title := title, type := type,
          isHeart := some isHeart,
          x := some ((page.layout.length * 2) % 12 : Nat),
          y := some .bottom, w := some 6, h := some 4 }
      let newLayout : LayoutItem :=
        { i := widgetId, x := ((page.layout.length * 2) % 12 : Nat),
          y := .bottom, w := 6, h := 4 }
      { page with widgets := page.widgets ++ [newWidget],
                  layout := page.layout ++ [newLayout] }
    else page)

/-- Operation `removeWidgetFromPage(pageId, widgetId)`: on the matching page, filters
the widget out of `widgets` and its entry out of `layout`. -/
def removeWidgetFromPage (pageId : String) (widgetId : String)
    (pages : List CustomPage) : List CustomPage :=
  pages.map (fun page =>
    if page.id == pageId then
      { page with widgets := page.widgets.filter (fun w => w.id != widgetId),
                  layout := page.layout.filter (fun item => item.i != widgetId) }
    else page)

/-- Operation `updatePageLayout(pageId, layout)`: replaces the matching page's layout
array wholesale. -/
def updatePageLayout (pageId : String) (layout : List LayoutItem)
    (pages : List CustomPage) : List CustomPage :=
  pages.map (fun page =>
    if page.id == pageId then { page with layout := layout } else page)

/-- Operation `copyWidget(pageId, widgetId)`: if the source widget exists on the
matching page, appends a clone of it under the fresh id together with a
fresh default layout slot (same formula as `addWidgetToPage`). -/
def copyWidget (newWidgetId : String) (pageId : String) (widgetId : String)
    (pages : List CustomPage) : List CustomPage :=
  pages.map (fun page =>
    if page.id == pageId then
      match page.widgets.find? (fun w => w.id == widgetId) with
      | some originalWidget =>
          let newWidget : Widget := { originalWidget with id := newWidgetId }
          let newLayout : LayoutItem :=
            { i := newWidgetId, x := ((page.layout.length * 2) % 12 : Nat),
              y := .bottom, w := 6, h := 4 }
          { page with widgets := page.widgets ++ [newWidget],
                      layout := page.layout ++ [newLayout] }
      | none => page
    else page)

/-- Operation `updatePageTitle(pageId, newTitle)`: in-place rename, no validation. -/
def updatePageTitle (pageId : String) (newTitle : String)
    (pages : List CustomPage) : List CustomPage :=
  pages.map (fun page =>
    if page.id == pageId then { page with title := newTitle } else page)

/-- Operation `updateWidgetTitle(pageId, widgetId, newTitle)`: renames the matching
widget on the matching page. -/
def updateWidgetTitle (pageId : String) (widgetId : String) (newTitle : String)
    (pages : List CustomPage) : List CustomPage :=
  pages.map (fun page =>
    if page.id == pageId then
      { page with widgets := page.widgets.map (fun widget =>
          if widget.id == widgetId then { widget with title := newTitle }
          else widget) }
    else page)

/-! ## Durable storage and `importPage`

The browser `localStorage` namespace used by the widgets is modelled as an
association list of key/value pairs; `setItem` overwrites any previous
binding of the key.  The `customPages` blob (which the provider's effect
rewrites from `pages` after every mutation) is not duplicated here: the
`pages` component of `AppState` *is* that blob's content.  The explicit
entries model the widget-scoped keys, in particular
`s3-buckets-filters-<widgetId>`. -/

/-- A `localStorage` snapshot restricted to string keys and values. -/
abbrev LocalStorage := List (String × String)

/-- Model of `localStorage.setItem(key, value)`: overwrite the binding of `key`. -/
def setItem (ls : LocalStorage) (key value : String) : LocalStorage :=
  (key, value) :: List.filter (fun e => e.1 != key) ls

/-- Model of `localStorage.getItem(key)`. -/
def getItem (ls : LocalStorage) (key : String) : Option String :=
  (List.find? (fun e => e.1 == key) ls).map (·.2)

/-- The part of the application state the verified operations touch:
the in-memory page collection plus the widget-scoped storage entries. -/
structure AppState where
  pages : List CustomPage
  storage : LocalStorage
deriving DecidableEq, Repr

/-- A loosely-typed JavaScript scalar as it can reach `config.title` from
the YAML parse: absent or `null` property, a string, a number, or a
boolean.  (Other YAML scalars behave like one of these representatives
under the two operations the store applies to the title: the `!` truthiness
test and string coercion.) -/
inductive JSValue
  | undefined
  | str (s : String)
  | num (n : Int)
  | bool (b : Bool)
deriving DecidableEq, Repr

/-- JavaScript falsiness of a scalar: `undefined`/`null`, the empty
string, the number zero and `false` are falsy; everything else — including
non-string truthy values such as the number 42 — is truthy. -/
def jsFalsy : JSValue → Bool
  | .undefined => true
  | .str s => s == ""
  | .num n => n == 0
  | .bool b => !b

/-- JavaScript string coercion `String(x)` of a scalar, used where the
typed embedding records a title that the source stores as the raw
value. -/
def jsValueString : JSValue → String
  | .undefined => "undefined"
  | .str s => s
  | .num n => toString n
  | .bool b => if b then "true" else "false"

/-- The untyped configuration object reaching `importPage` (parsed YAML).
`title` is whatever scalar the document carried (the source tests only
`!config.title`, i.e. JavaScript falsiness — not string-ness), and
`widgets`/`layout` are `none` exactly when `Array.isArray` fails. -/
structure ImportConfig where
  title : JSValue
  widgets : Option (List Widget)
  layout : Option (List LayoutItem)
deriving DecidableEq, Repr

/-- JavaScript `a || b` on a possibly-undefined string `a`:
yields `b` when `a` is `undefined` or the (falsy) empty string. -/
def jsOrElse (a : Option String) (b : String) : String :=
  match a with
  | some s => if s == "" then b else s
  | none => b

/-- The `widgetIdMap` built by `importPage`: one `Map.set(widget.id, newId)`
per widget, the k-th widget getting the k-th fresh id `gen k`. -/
def widgetIdMapOf (gen : Nat → String) : Nat → List Widget →
    List (String × String)
  | _, [] => []
  | k, widget :: rest => (widget.id, gen k) :: widgetIdMapOf gen (k + 1) rest

/-- Lookup `Map.get` on `widgetIdMap`: since `Map.set` overwrites, the latest
binding of the key wins. -/
def mapGet (m : List (String × String)) (key : String) : Option String :=
  (List.find? (fun e => e.1 == key) m.reverse).map (·.2)

/-- The `config.widgets.map(widget => ({...widget, id: newId}))` step:
the k-th widget is re-issued with fresh id `gen k`. -/
def assignFreshIds (gen : Nat → String) : Nat → List Widget → List Widget
  | _, [] => []
  | k, widget :: rest => { widget with id := gen k } :: assignFreshIds gen (k + 1) rest

/-- The filter-restore loop of `importPage`: for every config widget of type
`s3-buckets` carrying a (truthy) `filters` payload, re-persist that payload
under the fresh widget id's storage key. -/
def restoreFilters (idMap : List (String × String)) :
    List Widget → LocalStorage → LocalStorage
  | [], ls => ls
  | widget :: rest, ls =>
      let ls' :=
        if widget.type = .s3Buckets then
          match widget.filters with
          | some payload =>
              match mapGet idMap widget.id with
              | some newWidgetId =>
                  setItem ls ("s3-buckets-filters-" ++ newWidgetId) payload
              | none => ls
          | none => ls
        else ls
      restoreFilters idMap rest ls'

/-- Operation `importPage(config)` from `part_014`.  Validation happens before any
mutation: `if (!config.title || !Array.isArray(config.widgets) ||
!Array.isArray(config.layout)) throw new Error('Invalid page
configuration')`.  On success: fresh ids for all widgets, the layout's `i`
fields rewritten through the old-to-new map (`widgetIdMap.get(item.i) ||
item.i`, so unmapped — or remapped-to-falsy — ids pass through unchanged),
filter payloads re-persisted, and the new page appended.  The validation
tests only the *falsiness* of `config.title`; a truthy non-string title
passes it.  The source stores that raw value as the page title; the typed
embedding records its string coercion `jsValueString`, which is how the
title is subsequently consumed (display text).  The result pairs the state
after the call with the thrown error, if any. -/
def importPage (gen : Nat → String) (newPageId : String)
    (config : ImportConfig) (st : AppState) : AppState × Option String :=
  match config.widgets, config.layout with
  | some widgets, some layout =>
      if jsFalsy config.title then (st, some "Invalid page configuration")
      else
        let widgetIdMap := widgetIdMapOf gen 0 widgets
        let newWidgets := assignFreshIds gen 0 widgets
        let newLayout := layout.map (fun item =>
          { item with i := jsOrElse (mapGet widgetIdMap item.i) item.i })
        let newPage : CustomPage :=
          { id := newPageId, title := jsValueString config.title,
            widgets := newWidgets, layout := newLayout }
        let storage := restoreFilters widgetIdMap widgets st.storage
        ({ pages := st.pages ++ [newPage], storage := storage }, none)
  | _, _ => (st, some "Invalid page configuration")

/-- The application-level "remove widget" step: the view's `onDelete`
handler calls exactly `removeWidgetFromPage(page.id, widget.id)`; no code
path touches the widget-scoped storage entries (`part_014` has no
`localStorage.removeItem` outside `resetAllPages`). -/
def removeWidgetApp (pageId : String) (widgetId : String) (st : AppState) :
    AppState :=
  { st with pages := removeWidgetFromPage pageId widgetId st.pages }

/-- Handler `handleAddWidget` from `CustomPage.tsx`: the view-level guard around
`addWidgetToPage` — the store call is made only when the entered title is
non-blank after trimming (the untrimmed title is what gets passed on). -/
def handleAddWidget (widgetId : String) (pageId : String) (type : WidgetType)
    (title : String) (isHeart : Bool) (pages : List CustomPage) :
    List CustomPage :=
  if jsTrim title != "" then addWidgetToPage widgetId pageId type title isHeart pages
  else pages

/-! ## `formatBytes` and the size-column `sortComparator`
(`S3BucketsTable.tsx`)

`formatBytes` computes `i = Math.floor(Math.log(bytes) / Math.log(1024))`,
then renders `parseFloat((bytes / 1024^i).toFixed(2)) + ' ' + sizes[i]`.
The embedding uses exact arithmetic: the floor-log as an iterated division
count, and `toFixed(2)` followed by `parseFloat` as rounding to a rational
number of hundredths followed by shortest-decimal rendering.  (The source
computes the floor-log through double-precision logarithms; for the byte
counts appearing in the theorems below the quotient is far from an integer
boundary, where the two agree.) -/

/-- Iterated division: how many times 1024 divides into `n` before the
quotient drops below 1024.  `fuel` only bounds the recursion; any
`fuel ≥ n` is enough since the quotient shrinks strictly. -/
def unitIndexGo : Nat → Nat → Nat
  | 0, _ => 0
  | _, 0 => 0
  | fuel + 1, n => if n < 1024 then 0 else unitIndexGo fuel (n / 1024) + 1

/-- Value of `Math.floor(Math.log(bytes) / Math.log(1024))` for `bytes ≥ 1`,
modelled exactly. -/
def unitIndex (bytes : Nat) : Nat := unitIndexGo bytes bytes

/-- Rounding `⌊n / d + 1/2⌋` for naturals: the exact model of rounding
`bytes / 1024^i` to two decimals (`n` arrives pre-scaled by 100; no tie is
hit by the inputs used below, so half-up versus half-even is moot). -/
def roundedDiv (n d : Nat) : Nat := (2 * n + d) / (2 * d)

/-- JavaScript number-to-string for a non-negative value with at most two
decimal places, given in hundredths: integer values render bare, trailing
zeros of the fraction are dropped (`parseFloat('1.50') + '' === '1.5'`). -/
def renderHundredths (cents : Nat) : String :=
  let whole := cents / 100
  let frac := cents % 100
  if frac == 0 then toString whole
  else if frac % 10 == 0 then toString whole ++ "." ++ toString (frac / 10)
  else if frac < 10 then toString whole ++ ".0" ++ toString frac
  else toString whole ++ "." ++ toString frac

/-- The unit names of `formatBytes`; an index past the end would render as
the string `"undefined"` in JavaScript. -/
def sizes : List String := ["Bytes", "KB", "MB", "GB", "TB"]

/-- Function `formatBytes(bytes)` from `S3BucketsTable.tsx`:
`parseFloat((bytes / Math.pow(1024, i)).toFixed(2)) + ' ' + sizes[i]`,
with the quotient rounded to hundredths in exact arithmetic. -/
def formatBytes (bytes : Nat) : String :=
  if bytes == 0 then "0 Bytes"
  else
    let i := unitIndex bytes
    renderHundredths (roundedDiv (bytes * 100) (1024 ^ i)) ++ " " ++
      sizes.getD i "undefined"

/-- Accumulate a digit string into a natural number. -/
def digitsVal (cs : List Char) : Nat :=
  cs.foldl (fun n c => n * 10 + (c.toNat - 48)) 0

/-- Model of `parseFloat` on the strings produced by `formatBytes` (a digit run
optionally followed by `.` and at most two fractional digits), returned in
hundredths so the value stays exact. -/
def parseFloatCents (cs : List Char) : Nat :=
  let intDigits := cs.takeWhile Char.isDigit
  match cs.drop intDigits.length with
  | '.' :: rest =>
      let fracDigits := rest.takeWhile Char.isDigit
      digitsVal intDigits * 100 +
        (match fracDigits with
         | [] => 0
         | [d] => (d.toNat - 48) * 10
         | d1 :: d2 :: _ => (d1.toNat - 48) * 10 + (d2.toNat - 48))
  | _ => digitsVal intDigits * 100

/-- The size column's `sortComparator`:
`parseFloat(v1.split(' ')[0]) - parseFloat(v2.split(' ')[0])`.  The value
is represented in hundredths (scaled by 100), which preserves the sign and
ordering of the JavaScript difference exactly; the unit suffix is ignored
by the source. -/
def sortComparator (v1 v2 : String) : Int :=
  (parseFloatCents (v1.data.takeWhile (fun c => c != ' ')) : Int) -
    (parseFloatCents (v2.data.takeWhile (fun c => c != ' ')) : Int)

example : formatBytes 0 = "0 Bytes" := by decide
example : formatBytes 1024 = "1 KB" := by decide
example : formatBytes 1536 = "1.5 KB" := by decide
example : formatBytes 104857600 = "100 MB" := by decide
example : formatBytes 2147483648 = "2 GB" := by decide
example : sortComparator "100 MB" "2 GB" = 9800 := by decide

/-! ## The S3 bucket row model (`S3BucketsTable.tsx`) -/

/-- One entry of a bucket's `lifecycle` array. -/
structure LifecycleRule where
  AbortIncompleteMultipartUpload : Int
  Expiration : Int
  LifecycleRule : String
  NoncurrentVersionExpiration : Int
  NoncurrentVersionTransitionsDays : Int
  NoncurrentVersionTransitionsStorage : String
  Status : String
  TransitionDays : Int
  TransitionStorage : String
deriving DecidableEq, Repr

/-- The `relationships.Account.data` record. -/
structure AccountData where
  id : String
  type : String
  name : String
deriving DecidableEq, Repr

/-- The `attributes` record of an `S3Bucket`. -/
structure S3Attributes where
  lifecycle : List LifecycleRule
  Name : String
  Region : String
  SizeBytes : Nat
  WeeklyGrow : Nat
deriving DecidableEq, Repr

/-- The `relationships.Account` wrapper. -/
structure AccountRef where
  data : AccountData
deriving DecidableEq, Repr

/-- The `relationships` record of an `S3Bucket`. -/
structure S3Relationships where
  Account : AccountRef
deriving DecidableEq, Repr

/-- An `S3Bucket` row of the fixture dataset. -/
structure S3Bucket where
  type : String
  id : String
  attributes : S3Attributes
  relationships : S3Relationships
deriving DecidableEq, Repr

/-- JavaScript `x || 'N/A'` on an optional string field of
`lifecycle[0]`. -/
def lifecycleField (row : S3Bucket) (f : LifecycleRule → String)
    (fallback : String) : String :=
  match row.attributes.lifecycle with
  | [] => fallback
  | rule :: _ => if f rule == "" then fallback else f rule

/-- The field-name dispatch switch inside `evaluateFilterExpression`:
extracts the compared string for a filter's `field`. Unknown fields hit the
`default` branch and yield `''`. -/
def getFieldValue (field : String) (row : S3Bucket) : String :=
  if field == "name" then row.attributes.Name
  else if field == "account" then row.relationships.Account.data.name
  else if field == "accountId" then row.relationships.Account.data.id
  else if field == "region" then row.attributes.Region
  else if field == "size" then formatBytes row.attributes.SizeBytes
  else if field == "weeklyGrowth" then formatBytes row.attributes.WeeklyGrow
  else if field == "lifecycleRule" then
    lifecycleField row LifecycleRule.LifecycleRule "N/A"
  else if field == "lifecycleStatus" then
    lifecycleField row LifecycleRule.Status "N/A"
  else if field == "storageClass" then
    lifecycleField row LifecycleRule.TransitionStorage "STANDARD"
  else ""

/-- The `filter` payload of a filter element:
`{field, operator, value}` (all strings in the source). -/
structure FilterTerm where
  field : String
  operator : String
  value : String
deriving DecidableEq, Repr

/-- The operator switch inside `evaluateFilterExpression`: the boolean a
`filter` token contributes for the given row.  Unknown operators hit the
`default` branch and yield `true`. -/
def evalTerm (t : FilterTerm) (row : S3Bucket) : Bool :=
  let value := getFieldValue t.field row
  if t.operator == "contains" then
    jsIncludes (jsToLower value) (jsToLower t.value)
  else if t.operator == "equals" then jsToLower value == jsToLower t.value
  else if t.operator == "startsWith" then
    (jsToLower t.value).data.isPrefixOf (jsToLower value).data
  else if t.operator == "endsWith" then
    (jsToLower t.value).data.reverse.isPrefixOf (jsToLower value).data.reverse
  else if t.operator == "isEmpty" then value == "" || value == "N/A"
  else if t.operator == "isNotEmpty" then !(value == "") && !(value == "N/A")
  else true

/-- A `FilterElement` of the builder UI.  Filter elements constructed by
`handleAddFilter` always carry their payload; operator elements carry their
display string (`'AND'`/`'OR'`), parenthesis elements their side. -/
inductive FilterElement
  | filter (f : FilterTerm)
  | operator (value : String)
  | parenthesis (isOpen : Bool)
deriving DecidableEq, Repr

/-! ## The string-built boolean expression and its JavaScript semantics

`evaluateFilterExpression` maps the element list to per-token pieces
(booleans for filter terms, the literal symbols `&&`, `||`, `(`, `)` for
the rest — anything else is skipped by the `forEach`), concatenates them
into `evalString`, and runs `new Function('return ' + evalString)()` inside
`try/catch`, returning `true` when anything throws.

The embedding keeps the pieces as a list instead of a concatenated string
and models the JavaScript pipeline on it exactly:

* lexing: maximal munch merges *adjacent* boolean literals into a single
  identifier token (`'false' + 'true'` lexes as the identifier
  `falsetrue`); every other adjacency lexes as separate tokens;
* parsing (at `new Function` construction time — a failure here is a
  `SyntaxError` regardless of short-circuiting): `||` of `&&` of call
  expressions of primaries, with `(`...`)` both as grouping and as call
  arguments (`false(true)` and `false()` parse; the argument list has no
  comma in this token alphabet), and the whole token list must be
  consumed;
* evaluation: `&&`/`||` short-circuit, an evaluated identifier throws
  `ReferenceError`, an evaluated call throws `TypeError` after evaluating
  callee and argument. -/

/-- One piece of `evalString`. -/
inductive EvalPiece
  | pbool (b : Bool)
  | pand
  | por
  | plparen
  | prparen
deriving DecidableEq, Repr

/-- The element-to-piece mapping (the `.map` plus the `forEach` filter of
the source): filter elements become their boolean result; `'AND'`, `'OR'`
and parentheses become symbols; any other element value is skipped. -/
def pieces (elements : List FilterElement) (row : S3Bucket) : List EvalPiece :=
  elements.filterMap (fun element =>
    match element with
    | .filter f => some (.pbool (evalTerm f row))
    | .operator v =>
        if v == "AND" then some .pand
        else if v == "OR" then some .por
        else none
    | .parenthesis isOpen => some (if isOpen then .plparen else .prparen))

/-- A JavaScript token of the concatenated `evalString`.  `tident` is a
run of two or more adjacent boolean literals merged by maximal munch. -/
inductive JSTok
  | tlit (b : Bool)
  | tident
  | tand
  | tor
  | tlp
  | trp
deriving DecidableEq, Repr

/-- Lexer state: nothing pending, a single boolean literal pending, or an
identifier run (two or more adjacent literals) pending. -/
inductive LexState
  | start
  | single (b : Bool)
  | run
deriving DecidableEq, Repr

/-- The token a non-boolean piece lexes to. -/
def symTok : EvalPiece → JSTok
  | .pbool b => .tlit b
  | .pand => .tand
  | .por => .tor
  | .plparen => .tlp
  | .prparen => .trp

/-- One-pass lexer over the pieces, merging adjacent boolean literals. -/
def lexAux : LexState → List EvalPiece → List JSTok
  | .start, [] => []
  | .single b, [] => [.tlit b]
  | .run, [] => [.tident]
  | .start, .pbool b :: rest => lexAux (.single b) rest
  | .single _, .pbool _ :: rest => lexAux .run rest
  | .run, .pbool _ :: rest => lexAux .run rest
  | .start, p :: rest => symTok p :: lexAux .start rest
  | .single b, p :: rest => .tlit b :: symTok p :: lexAux .start rest
  | .run, p :: rest => .tident :: symTok p :: lexAux .start rest

/-- Lex the `evalString` obtained by concatenating the pieces. -/
def lexPieces (ps : List EvalPiece) : List JSTok := lexAux .start ps

/-- The abstract syntax of the JavaScript expressions reachable from this
token alphabet. -/
inductive JSExpr
  | lit (b : Bool)
  | identE
  | orE (l r : JSExpr)
  | andE (l r : JSExpr)
  | callE (callee : JSExpr) (arg : Option JSExpr)
deriving Repr

mutual

/-- Parse the `||` level: `&&`-chains separated by `||` (lowest precedence). -/
def parseOrE : Nat → List JSTok → Option (JSExpr × List JSTok)
  | 0, _ => none
  | fuel + 1, ts => do
      let (l, rest) ← parseAndE fuel ts
      parseOrTail fuel l rest

/-- Left-associated continuation of an `||`-chain. -/
def parseOrTail : Nat → JSExpr → List JSTok → Option (JSExpr × List JSTok)
  | 0, _, _ => none
  | fuel + 1, acc, .tor :: rest => do
      let (r, rest') ← parseAndE fuel rest
      parseOrTail fuel (.orE acc r) rest'
  | _ + 1, acc, ts => some (acc, ts)

/-- Parse the `&&` level: call expressions separated by `&&`. -/
def parseAndE : Nat → List JSTok → Option (JSExpr × List JSTok)
  | 0, _ => none
  | fuel + 1, ts => do
      let (l, rest) ← parseCallE fuel ts
      parseAndTail fuel l rest

/-- Left-associated continuation of an `&&`-chain. -/
def parseAndTail : Nat → JSExpr → List JSTok → Option (JSExpr × List JSTok)
  | 0, _, _ => none
  | fuel + 1, acc, .tand :: rest => do
      let (r, rest') ← parseCallE fuel rest
      parseAndTail fuel (.andE acc r) rest'
  | _ + 1, acc, ts => some (acc, ts)

/-- Call level: a primary followed by zero or more argument lists. -/
def parseCallE : Nat → List JSTok → Option (JSExpr × List JSTok)
  | 0, _ => none
  | fuel + 1, ts => do
      let (callee, rest) ← parsePrimaryE fuel ts
      parseCallTail fuel callee rest

/-- Attach `(...)` argument lists to a callee: empty `()` or one
expression (the alphabet has no comma token). -/
def parseCallTail : Nat → JSExpr → List JSTok → Option (JSExpr × List JSTok)
  | 0, _, _ => none
  | fuel + 1, callee, .tlp :: .trp :: rest =>
      parseCallTail fuel (.callE callee none) rest
  | fuel + 1, callee, .tlp :: rest => do
      let (arg, rest') ← parseOrE fuel rest
      match rest' with
      | .trp :: rest'' => parseCallTail fuel (.callE callee (some arg)) rest''
      | _ => none
  | _ + 1, callee, ts => some (callee, ts)

/-- Primary: a boolean literal, an identifier, or a parenthesized
expression. -/
def parsePrimaryE : Nat → List JSTok → Option (JSExpr × List JSTok)
  | 0, _ => none
  | _ + 1, .tlit b :: rest => some (.lit b, rest)
  | _ + 1, .tident :: rest => some (.identE, rest)
  | fuel + 1, .tlp :: rest => do
      let (e, rest') ← parseOrE fuel rest
      match rest' with
      | .trp :: rest'' => some (e, rest'')
      | _ => none
  | _ + 1, _ => none

end

/-- Parse a complete expression: all tokens must be consumed
(`return <expr>` with leftover tokens is a `SyntaxError`).  The fuel bound
is generous: each fuel unit pays for one parser entry and the call depth
between token consumptions is at most four levels plus paren descents. -/
def topParse (ts : List JSTok) : Option JSExpr :=
  match parseOrE (8 * ts.length + 8) ts with
  | some (e, []) => some e
  | _ => none

/-- The runtime errors reachable from this expression language. -/
inductive JSErr
  | referenceError
  | typeError
deriving DecidableEq, Repr

/-- Short-circuit evaluation.  On booleans `a || b` returns `a` when `a`
is truthy, `a && b` returns `a` when `a` is falsy, without touching `b`;
an identifier throws `ReferenceError` when (and only when) it is actually
evaluated; a call evaluates callee then argument and then throws
`TypeError` because no value here is callable. -/
def evalJS : JSExpr → Except JSErr Bool
  | .lit b => .ok b
  | .identE => .error .referenceError
  | .orE l r => do
      let v ← evalJS l
      if v then pure true else evalJS r
  | .andE l r => do
      let v ← evalJS l
      if v then evalJS r else pure false
  | .callE callee arg => do
      let _ ← evalJS callee
      match arg with
      | some a => do
          let _ ← evalJS a
          .error .typeError
      | none => .error .typeError

/-- The observable outcome of `new Function('return ' + evalString)()`
inside the `try` block. -/
inductive JSOutcome
  | val (b : Bool)
  | undef
  | caught
deriving DecidableEq, Repr

/-- Outcome of building and running `evalString` from its pieces: an empty
`evalString` yields `undefined` (`return ;` is legal); a parse failure is a
`SyntaxError` thrown by the `Function` constructor and caught; a runtime
error is thrown by the call and caught. -/
def runPieces (ps : List EvalPiece) : JSOutcome :=
  let ts := lexPieces ps
  if ts.isEmpty then .undef
  else
    match topParse ts with
    | none => .caught
    | some e =>
        match evalJS e with
        | .ok b => .val b
        | .error _ => .caught

/-- Outcome of building and running the expression for one row. -/
def evalOutcome (elements : List FilterElement) (row : S3Bucket) : JSOutcome :=
  runPieces (pieces elements row)

/-- Function `evaluateFilterExpression(row)` as a boolean: the caught branch
returns `true` (fail-open); the `undefined` of an empty piece list is
falsy for the `Array.filter` caller (that case is shielded by the
`filterElements.length === 0` guard in `filteredRows`). -/
def evaluateFilterExpression (elements : List FilterElement)
    (row : S3Bucket) : Bool :=
  match evalOutcome elements row with
  | .val b => b
  | .undef => false
  | .caught => true

/-! ## Properties from the specification -/

/-- The widget/layout lockstep invariant of the spec: every widget id has
exactly one layout entry carrying it as `i`, and every layout entry's `i`
has exactly one widget carrying it as `id`. -/
def InSync (p : CustomPage) : Prop :=
  (∀ s ∈ p.widgets.map Widget.id, (p.layout.map LayoutItem.i).count s = 1) ∧
    (∀ s ∈ p.layout.map LayoutItem.i, (p.widgets.map Widget.id).count s = 1)

instance (p : CustomPage) : Decidable (InSync p) := by
  unfold InSync; infer_instance

/-- The id `s` is used by no widget and no layout entry anywhere in the
store — the modelling of "freshly generated id". -/
def FreshId (s : String) (pages : List CustomPage) : Prop :=
  ∀ p ∈ pages, s ∉ p.widgets.map Widget.id ∧ s ∉ p.layout.map LayoutItem.i

instance (s : String) (pages : List CustomPage) : Decidable (FreshId s pages) := by
  unfold FreshId; infer_instance

/-! The spec's reading of the evaluation order ("strictly left-to-right
through the flat stream honoring only explicit parens — no implicit
AND-before-OR precedence"), written from the spec's words as a reference
evaluator to compare against the engine. -/

mutual

/-- Spec-side reference: one operand — a term's boolean or a
parenthesized subexpression. -/
def ltrOperand : Nat → List EvalPiece → Option (Bool × List EvalPiece)
  | 0, _ => none
  | _ + 1, .pbool b :: rest => some (b, rest)
  | fuel + 1, .plparen :: rest => do
      let (v, rest') ← ltrExpr fuel rest
      match rest' with
      | .prparen :: rest'' => some (v, rest'')
      | _ => none
  | _ + 1, _ => none

/-- Spec-side reference: fold the operators into the accumulator strictly
left-to-right, AND and OR at equal precedence. -/
def ltrTail : Nat → Bool → List EvalPiece → Option (Bool × List EvalPiece)
  | 0, _, _ => none
  | fuel + 1, acc, .pand :: rest => do
      let (t, rest') ← ltrOperand fuel rest
      ltrTail fuel (acc && t) rest'
  | fuel + 1, acc, .por :: rest => do
      let (t, rest') ← ltrOperand fuel rest
      ltrTail fuel (acc || t) rest'
  | _ + 1, acc, ts => some (acc, ts)

/-- Spec-side reference: an expression is an operand followed by an
operator/operand tail. -/
def ltrExpr : Nat → List EvalPiece → Option (Bool × List EvalPiece)
  | 0, _ => none
  | fuel + 1, ts => do
      let (v, rest) ← ltrOperand fuel ts
      ltrTail fuel v rest

end

/-- Spec-side reference evaluator for a whole stream: the left-to-right
fold of the per-term boolean results through the operator tokens, honoring
only explicit parens; `none` on malformed streams. -/
def specLeftToRight (elements : List FilterElement) (row : S3Bucket) :
    Option Bool :=
  let ps := pieces elements row
  match ltrExpr (8 * ps.length + 8) ps with
  | some (v, []) => some v
  | _ => none

/-- A map whose function fixes every member of the list is the
identity. -/
theorem map_id_of_fixes {α : Type} (f : α → α) (l : List α)
    (h : ∀ a ∈ l, f a = a) : l.map f = l := by
  induction l with
  | nil => rfl
  | cons a t ih =>
      rw [List.map_cons, h a (List.mem_cons_self a t),
        ih (fun b hb => h b (List.mem_cons_of_mem a hb))]

/-! ## Claim C10: page-scoped mutations leave other pages untouched -/

/-- C10.  Every page-scoped store mutation (`addWidgetToPage`,
`removeWidgetFromPage`, `updatePageLayout`, `copyWidget`,
`updatePageTitle`, `updateWidgetTitle`) leaves every page whose id differs
from the given `pageId` completely unchanged, at its original position in
the collection, for every store state and every argument. -/
theorem frame_of_page_scoped_mutations
    (pages : List CustomPage) (i : Nat) (p : CustomPage)
    (pid widgetId newWidgetId newTitle title : String) (type : WidgetType)
    (isHeart : Bool) (layout : List LayoutItem)
    (hget : pages[i]? = some p) (hne : p.id ≠ pid) :
    (addWidgetToPage widgetId pid type title isHeart pages)[i]? = some p ∧
    (removeWidgetFromPage pid widgetId pages)[i]? = some p ∧
    (updatePageLayout pid layout pages)[i]? = some p ∧
    (copyWidget newWidgetId pid widgetId pages)[i]? = some p ∧
    (updatePageTitle pid newTitle pages)[i]? = some p ∧
    (updateWidgetTitle pid widgetId newTitle pages)[i]? = some p := by
  refine ⟨?_, ?_, ?_, ?_, ?_, ?_⟩ <;>
    simp [addWidgetToPage, removeWidgetFromPage, updatePageLayout, copyWidget,
      updatePageTitle, updateWidgetTitle, List.getElem?_map, hget, hne]

/-- Witness for C10 at a concrete store. -/
theorem frame_of_page_scoped_mutations_witness :
    (addWidgetToPage "w9" "p2" .text "T" false
        [⟨"p1", "A", [], []⟩, ⟨"p2", "B", [], []⟩])[0]? =
      some ⟨"p1", "A", [], []⟩ := by
  have h := frame_of_page_scoped_mutations
    [⟨"p1", "A", [], []⟩, ⟨"p2", "B", [], []⟩] 0 ⟨"p1", "A", [], []⟩
    "p2" "w" "w9" "t" "T" .text false [] (by decide) (by decide)
  exact h.1

/-! ## Claims C2 and C3: evaluation order and fail-open behavior -/

/-- A concrete fixture row for counterexamples. -/
def demoRow : S3Bucket :=
  { type := "s3", id := "b1",
    attributes :=
      { lifecycle := [], Name := "alpha", Region := "us-east-1",
        SizeBytes := 0, WeeklyGrow := 0 },
    relationships :=
      { Account := { data := { id := "123", type := "account", name := "prod" } } } }

/-- A term that evaluates to `true` on `demoRow`
(`'alpha'.includes('')`). -/
def termTrue : FilterTerm := ⟨"name", "contains", ""⟩

/-- A term that evaluates to `false` on `demoRow`
(`'alpha' === 'zzz'` after lowering). -/
def termFalse : FilterTerm := ⟨"name", "equals", "zzz"⟩

/-- Counterexample to C2.  On the stream `T OR F AND F` the engine yields
`true` — JavaScript gives `&&` precedence over `||`, so the string
`true||false&&false` evaluates as `true || (false && false)` — while the
claimed strictly-left-to-right fold `(true OR false) AND false` yields
`false`. -/
theorem evaluation_not_left_to_right :
    evaluateFilterExpression
        [.filter termTrue, .operator "OR", .filter termFalse,
         .operator "AND", .filter termFalse] demoRow = true ∧
      specLeftToRight
        [.filter termTrue, .operator "OR", .filter termFalse,
         .operator "AND", .filter termFalse] demoRow = some false := by
  constructor <;> decide

/-- C2 as amended.  The engine evaluates the stream under JavaScript
precedence: AND binds tighter than OR (`T1 OR T2 AND T3` is
`T1 OR (T2 AND T3)`, `T1 AND T2 OR T3` is `(T1 AND T2) OR T3`), and only
explicit parentheses override that grouping. -/
theorem and_binds_tighter_than_or (t1 t2 t3 : FilterTerm) (row : S3Bucket) :
    evaluateFilterExpression
        [.filter t1, .operator "OR", .filter t2, .operator "AND", .filter t3]
        row = (evalTerm t1 row || (evalTerm t2 row && evalTerm t3 row)) ∧
      evaluateFilterExpression
        [.filter t1, .operator "AND", .filter t2, .operator "OR", .filter t3]
        row = ((evalTerm t1 row && evalTerm t2 row) || evalTerm t3 row) ∧
      evaluateFilterExpression
        [.parenthesis true, .filter t1, .operator "OR", .filter t2,
         .parenthesis false, .operator "AND", .filter t3]
        row = ((evalTerm t1 row || evalTerm t2 row) && evalTerm t3 row) := by
  have hp1 : pieces
      [.filter t1, .operator "OR", .filter t2, .operator "AND", .filter t3]
      row = [.pbool (evalTerm t1 row), .por, .pbool (evalTerm t2 row),
             .pand, .pbool (evalTerm t3 row)] := rfl
  have hp2 : pieces
      [.filter t1, .operator "AND", .filter t2, .operator "OR", .filter t3]
      row = [.pbool (evalTerm t1 row), .pand, .pbool (evalTerm t2 row),
             .por, .pbool (evalTerm t3 row)] := rfl
  have hp3 : pieces
      [.parenthesis true, .filter t1, .operator "OR", .filter t2,
       .parenthesis false, .operator "AND", .filter t3]
      row = [.plparen, .pbool (evalTerm t1 row), .por,
             .pbool (evalTerm t2 row), .prparen, .pand,
             .pbool (evalTerm t3 row)] := rfl
  cases h1 : evalTerm t1 row <;> cases h2 : evalTerm t2 row <;>
    cases h3 : evalTerm t3 row <;>
    rw [h1, h2, h3] at hp1 hp2 hp3 <;>
    refine ⟨?_, ?_, ?_⟩ <;>
    · unfold evaluateFilterExpression evalOutcome
      first
      | (rw [hp1]; decide)
      | (rw [hp2]; decide)
      | (rw [hp3]; decide)

/-- Counterexample to C3.  The malformed stream `F AND T F` (two
consecutive terms) concatenates to `false&&truefalse`; `truefalse` lexes as
one identifier, the expression parses, and `&&` short-circuits on the left
`false` without ever evaluating the unresolved identifier — no error is
thrown and the engine returns `false`, excluding the row instead of
failing open. -/
theorem malformed_stream_not_fail_open :
    evaluateFilterExpression
        [.filter termFalse, .operator "AND", .filter termTrue,
         .filter termFalse] demoRow = false := by
  decide

/-- C3 as amended.  The engine never throws to the caller, and whenever
building or running the expression raises an error (`SyntaxError`,
`ReferenceError`, `TypeError`) the row is treated as matching; but a
malformed stream is not guaranteed to raise — a short-circuited operand
can hide the malformed remainder (see the counterexample).  Representative
erroring families: two consecutive terms alone merge into an unresolved
identifier (`ReferenceError`), a trailing operator and a lone parenthesis
are `SyntaxError`s — all fail open. -/
theorem errors_fail_open :
    (∀ (elements : List FilterElement) (row : S3Bucket),
        evalOutcome elements row = .caught →
          evaluateFilterExpression elements row = true) ∧
      (∀ (t1 t2 : FilterTerm) (row : S3Bucket),
        evaluateFilterExpression [.filter t1, .filter t2] row = true) ∧
      (∀ (t : FilterTerm) (row : S3Bucket),
        evaluateFilterExpression [.filter t, .operator "AND"] row = true) ∧
      (∀ row : S3Bucket,
        evaluateFilterExpression [.parenthesis true] row = true) := by
  refine ⟨?_, ?_, ?_, ?_⟩
  · intro elements row h
    unfold evaluateFilterExpression
    rw [h]
  · intro t1 t2 row
    have hp : pieces [.filter t1, .filter t2] row =
        [.pbool (evalTerm t1 row), .pbool (evalTerm t2 row)] := rfl
    cases h1 : evalTerm t1 row <;> cases h2 : evalTerm t2 row <;>
      rw [h1, h2] at hp <;>
      · unfold evaluateFilterExpression evalOutcome
        rw [hp]; decide
  · intro t row
    have hp : pieces [.filter t, .operator "AND"] row =
        [.pbool (evalTerm t row), .pand] := rfl
    cases h : evalTerm t row <;> rw [h] at hp <;>
      · unfold evaluateFilterExpression evalOutcome
        rw [hp]; decide
  · intro row
    have hp : pieces [.parenthesis true] row = [.plparen] := rfl
    unfold evaluateFilterExpression evalOutcome
    rw [hp]; decide

/-- Witness for the amended C3 at a concrete erroring stream. -/
theorem errors_fail_open_witness :
    evalOutcome [.operator "AND"] demoRow = .caught ∧
      evaluateFilterExpression [.operator "AND"] demoRow = true :=
  ⟨by decide, errors_fail_open.1 [.operator "AND"] demoRow (by decide)⟩

/-! ## Claim C9: the size column's sort order -/

/-- C9.  The size comparator parses only the numeric prefix of the
formatted strings and ignores the unit suffix: 104857600 bytes formats as
`"100 MB"` and 2147483648 bytes as `"2 GB"`, and although
104857600 < 2147483648 the comparator returns a positive value
(100 − 2 > 0), ordering the `"100 MB"` row *after* the `"2 GB"` row —
against both the spec's sentence and the evident intent of installing a
numeric comparator. -/
theorem size_sort_comparator_ignores_units :
    formatBytes 104857600 = "100 MB" ∧
      formatBytes 2147483648 = "2 GB" ∧
      104857600 < 2147483648 ∧
      0 < sortComparator (formatBytes 104857600) (formatBytes 2147483648) := by
  refine ⟨by decide, by decide, by decide, by decide⟩

/-! ## Claim C7: the default layout slot formula -/

/-- The column count of the grid rendering custom pages
(`cols={20}` in `CustomPage.tsx`). -/
def gridCols : Nat := 20

/-- A page whose layout already holds six entries. -/
def pageSix : CustomPage :=
  { id := "p1", title := "P", widgets := [],
    layout :=
      [⟨"a", 0, .at 0, 6, 4⟩, ⟨"b", 2, .at 0, 6, 4⟩, ⟨"c", 4, .at 0, 6, 4⟩,
       ⟨"d", 6, .at 0, 6, 4⟩, ⟨"e", 8, .at 0, 6, 4⟩, ⟨"f", 10, .at 0, 6, 4⟩] }

/-- Counterexample to C7.  On a page with six layout entries the claim's
formula `x = (6 * 2) mod 20` gives 12, but `addWidgetToPage` computes
`(6 * 2) mod 12 = 0`: the appended layout entry carries `x = 0`, not 12. -/
theorem default_slot_not_mod_twenty :
    (addWidgetToPage "w7" "p1" .text "T" false [pageSix]).map
        (fun p => p.layout.map LayoutItem.x) =
      [[0, 2, 4, 6, 8, 10, 0]] ∧
      (6 * 2) % gridCols = 12 ∧
      (6 * 2) % 12 = 0 := by
  refine ⟨by decide, by decide, by decide⟩

/-- C7 as amended.  A successful `addWidgetToPage` (and likewise a
successful `copyWidget`) assigns the new slot deterministically as
`x = (layout.length * 2) mod 12` — a constant 12 in the store, not the
grid's column count, which is 20 — with `w = 6`, `h = 4` and `y` the
append-at-bottom sentinel. -/
theorem default_slot_formula (page : CustomPage) (widgetId newWidgetId pid : String)
    (type : WidgetType) (title : String) (isHeart : Bool) (w : Widget)
    (hpid : page.id = pid)
    (hfind : page.widgets.find? (fun v => v.id == widgetId) = some w) :
    addWidgetToPage widgetId pid type title isHeart [page] =
      [{ page with
          widgets := page.widgets ++
            [{ id := widgetId, title := title, type := type,
               isHeart := some isHeart,
               x := some ((page.layout.length * 2) % 12 : Nat),
               y := some .bottom, w := some 6, h := some 4 }],
          layout := page.layout ++
            [{ i := widgetId, x := ((page.layout.length * 2) % 12 : Nat),
               y := .bottom, w := 6, h := 4 }] }] ∧
      copyWidget newWidgetId pid widgetId [page] =
        [{ page with
            widgets := page.widgets ++ [{ w with id := newWidgetId }],
            layout := page.layout ++
              [{ i := newWidgetId, x := ((page.layout.length * 2) % 12 : Nat),
                 y := .bottom, w := 6, h := 4 }] }] ∧
      gridCols = 20 := by
  subst hpid
  refine ⟨?_, ?_, rfl⟩ <;> simp [addWidgetToPage, copyWidget, hfind]

/-- A page carrying one widget `q`, for the C7 witness. -/
def pageQ : CustomPage :=
  { id := "p1", title := "P",
    widgets := [{ id := "q", title := "Q", type := .text }],
    layout := [⟨"q", 0, .at 0, 6, 4⟩] }

/-- Witness for the amended C7. -/
theorem default_slot_formula_witness :
    addWidgetToPage "q" "p1" .text "T" false [pageQ] =
      [{ pageQ with
          widgets := pageQ.widgets ++
            [{ id := "q", title := "T", type := .text, isHeart := some false,
               x := some 2, y := some .bottom, w := some 6, h := some 4 }],
          layout := pageQ.layout ++ [⟨"q", 2, .bottom, 6, 4⟩] }] :=
  (default_slot_formula pageQ "q" "n" "p1" .text "T" false
    { id := "q", title := "Q", type := .text } rfl (by decide)).1

/-! ## Claim C6: blank titles and missing pages in `addWidgetToPage` -/

/-- Counterexample to C6.  `addWidgetToPage` itself performs no title
validation: called directly with the blank title `""` it still appends a
widget and a layout entry. -/
theorem blank_title_still_adds_widget :
    addWidgetToPage "w1" "p1" .text "" false [⟨"p1", "P", [], []⟩] ≠
      [⟨"p1", "P", [], []⟩] ∧
      (addWidgetToPage "w1" "p1" .text "" false [⟨"p1", "P", [], []⟩]).map
          (fun p => p.widgets.length) = [1] := by
  refine ⟨by decide, by decide⟩

/-- C6 as amended.  `addWidgetToPage` is a no-op when no page carries
`pageId`; the blank-title no-op is enforced one level up, in the view's
`handleAddWidget`, which skips the store call when the entered title trims
to the empty string — the store function itself appends a widget even for
a blank title (see the counterexample). -/
theorem add_widget_noop_conditions :
    (∀ (widgetId pid : String) (type : WidgetType) (title : String)
        (isHeart : Bool) (pages : List CustomPage),
        (∀ p ∈ pages, p.id ≠ pid) →
          addWidgetToPage widgetId pid type title isHeart pages = pages) ∧
      (∀ (widgetId pid : String) (type : WidgetType) (title : String)
        (isHeart : Bool) (pages : List CustomPage),
        jsTrim title = "" →
          handleAddWidget widgetId pid type title isHeart pages = pages) := by
  constructor
  · intro widgetId pid type title isHeart pages h
    unfold addWidgetToPage
    refine map_id_of_fixes _ pages (fun p hp => ?_)
    have hb : (p.id == pid) = false := beq_eq_false_iff_ne.mpr (h p hp)
    simp [hb]
  · intro widgetId pid type title isHeart pages h
    simp [handleAddWidget, h]

/-- Witness for the amended C6. -/
theorem add_widget_noop_conditions_witness :
    addWidgetToPage "w1" "p9" .text "T" false [⟨"p1", "P", [], []⟩] =
      [⟨"p1", "P", [], []⟩] :=
  add_widget_noop_conditions.1 "w1" "p9" .text "T" false
    [⟨"p1", "P", [], []⟩] (by decide)

/-! ## Claim C8: what `removeWidgetFromPage` does and does not remove -/

/-- A state with one page holding one widget whose filter state is
persisted under its widget-scoped key. -/
def stateWithFilters : AppState :=
  { pages :=
      [{ id := "p1", title := "P",
         widgets := [{ id := "w1", title := "W", type := .s3Buckets }],
         layout := [⟨"w1", 0, .at 0, 6, 4⟩] }],
    storage := [("s3-buckets-filters-w1", "[]")] }

/-- Counterexample to C8.  Removing widget `w1` removes the widget and its
layout entry but leaves the persisted filter state under
`s3-buckets-filters-w1` in durable storage (no code path deletes it short
of `resetAllPages`). -/
theorem remove_widget_leaves_filter_state :
    removeWidgetApp "p1" "w1" stateWithFilters =
      { pages := [{ id := "p1", title := "P", widgets := [], layout := [] }],
        storage := [("s3-buckets-filters-w1", "[]")] } ∧
      getItem (removeWidgetApp "p1" "w1" stateWithFilters).storage
          "s3-buckets-filters-w1" = some "[]" := by
  refine ⟨by decide, by decide⟩

/-- C8 as amended.  `removeWidgetFromPage` removes the widget and its
layout entry from the matching page, and is a no-op when the page id or
the widget id is not found — but the widget-scoped persisted filter state
(`s3-buckets-filters-<widgetId>`) is never removed: the storage component
is untouched by the removal step. -/
theorem remove_widget_removes_pair_only :
    (∀ (pid widgetId : String) (pages : List CustomPage),
        ∀ p ∈ removeWidgetFromPage pid widgetId pages,
          p.id = pid →
            (∀ w ∈ p.widgets, w.id ≠ widgetId) ∧
              (∀ l ∈ p.layout, l.i ≠ widgetId)) ∧
      (∀ (pid widgetId : String) (pages : List CustomPage),
        (∀ p ∈ pages, p.id ≠ pid) →
          removeWidgetFromPage pid widgetId pages = pages) ∧
      (∀ (pid widgetId : String) (pages : List CustomPage),
        (∀ p ∈ pages,
            (∀ w ∈ p.widgets, w.id ≠ widgetId) ∧
              (∀ l ∈ p.layout, l.i ≠ widgetId)) →
          removeWidgetFromPage pid widgetId pages = pages) ∧
      (∀ (pid widgetId : String) (st : AppState),
        (removeWidgetApp pid widgetId st).storage = st.storage) := by
  refine ⟨?_, ?_, ?_, ?_⟩
  · intro pid widgetId pages p hp hpid
    rcases List.mem_map.mp hp with ⟨q, hq, rfl⟩
    by_cases hqid : (q.id == pid) = true
    · rw [if_pos hqid] at hpid ⊢
      constructor
      · intro w hw
        have := (List.mem_filter.mp hw).2
        simpa using this
      · intro l hl
        have := (List.mem_filter.mp hl).2
        simpa using this
    · rw [if_neg hqid] at hpid
      exact absurd (beq_iff_eq.mpr hpid) hqid
  · intro pid widgetId pages h
    unfold removeWidgetFromPage
    refine map_id_of_fixes _ pages (fun p hp => ?_)
    have hb : (p.id == pid) = false := beq_eq_false_iff_ne.mpr (h p hp)
    simp [hb]
  · intro pid widgetId pages h
    unfold removeWidgetFromPage
    refine map_id_of_fixes _ pages (fun p hp => ?_)
    have hw : p.widgets.filter (fun w => w.id != widgetId) = p.widgets :=
      List.filter_eq_self.mpr (fun w hw => by
        simpa using ((h p hp).1 w hw))
    have hl : p.layout.filter (fun l => l.i != widgetId) = p.layout :=
      List.filter_eq_self.mpr (fun l hl => by
        simpa using ((h p hp).2 l hl))
    by_cases hid : (p.id == pid) = true
    · simp [hid, hw, hl]
    · simp only [Bool.not_eq_true] at hid
      simp [hid]
  · intro pid widgetId st
    rfl

/-- Witness for the amended C8. -/
theorem remove_widget_removes_pair_only_witness :
    removeWidgetFromPage "p9" "w1" stateWithFilters.pages =
      stateWithFilters.pages :=
  remove_widget_removes_pair_only.2.1 "p9" "w1" stateWithFilters.pages
    (by decide)

/-! ## Claims C4 and C5: `importPage` -/

/-- The spec's example import payload: one widget `a`, one layout entry
`{i: "a", x: 0, y: 0, w: 6, h: 4}`. -/
def configA : ImportConfig :=
  { title := .str "T",
    widgets := some [{ id := "a", title := "W", type := .text }],
    layout := some [⟨"a", 0, .at 0, 6, 4⟩] }

/-- C4.  Importing `configA` appends one new page: its single widget
carries the freshly generated id (hypothesis: the draw differs from `"a"`
and is non-empty, as a random 9-character id is), and its single layout
entry carries exactly that id. -/
theorem import_remaps_widget_and_layout_ids (gen : Nat → String)
    (newPageId : String) (st : AppState)
    (h1 : gen 0 ≠ "a") (h2 : gen 0 ≠ "") :
    importPage gen newPageId configA st =
      ({ pages := st.pages ++
          [{ id := newPageId, title := "T",
             widgets := [{ id := gen 0, title := "W", type := .text }],
             layout := [⟨gen 0, 0, .at 0, 6, 4⟩] }],
         storage := st.storage }, none) ∧
      gen 0 ≠ "a" := by
  have hb : (gen 0 == "") = false := beq_eq_false_iff_ne.mpr h2
  refine ⟨?_, h1⟩
  simp [importPage, configA, widgetIdMapOf, assignFreshIds, mapGet,
    jsOrElse, jsFalsy, jsValueString, restoreFilters, List.find?, hb, h2]

/-- Witness for C4 at a concrete id supply. -/
theorem import_remaps_widget_and_layout_ids_witness :
    importPage (fun _ => "z9") "p9" configA ⟨[], []⟩ =
      ({ pages :=
          [{ id := "p9", title := "T",
             widgets := [{ id := "z9", title := "W", type := .text }],
             layout := [⟨"z9", 0, .at 0, 6, 4⟩] }],
         storage := [] }, none) :=
  (import_remaps_widget_and_layout_ids (fun _ => "z9") "p9" ⟨[], []⟩
    (by decide) (by decide)).1

/-- Counterexample to C5.  The source checks `!config.title` — JavaScript
*falsiness*, not string-ness.  A truthy non-string title such as the YAML
number 42 is not a non-empty string, yet it passes validation: no error is
raised and the state is mutated (a page is appended), falsifying the
claimed "raises iff the title is not a non-empty string". -/
theorem truthy_nonstring_title_imports :
    importPage (fun _ => "z9") "p9" ⟨.num 42, some [], some []⟩ ⟨[], []⟩ =
      ({ pages := [{ id := "p9", title := "42", widgets := [], layout := [] }],
         storage := [] }, none) ∧
      (importPage (fun _ => "z9") "p9" ⟨.num 42, some [], some []⟩
          ⟨[], []⟩).2 = none ∧
      (importPage (fun _ => "z9") "p9" ⟨.num 42, some [], some []⟩
          ⟨[], []⟩).1 ≠ ⟨[], []⟩ := by
  refine ⟨by decide, by decide, by decide⟩

/-- C5 as amended.  `importPage` raises its validation error exactly when
`config.title` is JavaScript-falsy (absent/`null`, the empty string, zero,
`false`) or `config.widgets` or `config.layout` is not an array — so a
truthy non-string title (e.g. the number 42) is accepted and imported; and
whenever it raises, both the page collection and the storage are left
exactly as they were (the `throw` precedes every mutation). -/
theorem import_validation_iff (gen : Nat → String) (newPageId : String)
    (config : ImportConfig) (st : AppState) :
    ((importPage gen newPageId config st).2.isSome ↔
      (jsFalsy config.title = true ∨
        config.widgets = none ∨ config.layout = none)) ∧
      ((importPage gen newPageId config st).2.isSome →
        (importPage gen newPageId config st).1 = st) := by
  obtain ⟨t, ws, ls⟩ := config
  cases ws with
  | none => simp [importPage]
  | some ws =>
      cases ls with
      | none => simp [importPage]
      | some ls =>
          by_cases ht : jsFalsy t = true
          · simp [importPage, ht]
          · simp only [Bool.not_eq_true] at ht
            simp [importPage, ht]

/-- Witness for the amended C5 at a concrete invalid payload. -/
theorem import_validation_iff_witness :
    (importPage (fun _ => "z9") "p9" ⟨.str "T", none, some []⟩
        ⟨[], []⟩).2.isSome ∧
      (importPage (fun _ => "z9") "p9" ⟨.str "T", none, some []⟩
          ⟨[], []⟩).1 = ⟨[], []⟩ := by
  have h := import_validation_iff (fun _ => "z9") "p9"
    ⟨.str "T", none, some []⟩ ⟨[], []⟩
  have hs : (importPage (fun _ => "z9") "p9" ⟨.str "T", none, some []⟩
      ⟨[], []⟩).2.isSome := h.1.mpr (by simp)
  exact ⟨hs, h.2 hs⟩

/-! ## Claim C1: the widget/layout lockstep invariant

Counting lemmas about id lists, then preservation per operation. -/

/-- The lockstep condition on plain id lists: every member of either list
occurs exactly once in the other. -/
def SyncIds (A B : List String) : Prop :=
  (∀ s ∈ A, B.count s = 1) ∧ (∀ s ∈ B, A.count s = 1)

theorem inSync_iff_syncIds (p : CustomPage) :
    InSync p ↔ SyncIds (p.widgets.map Widget.id) (p.layout.map LayoutItem.i) :=
  Iff.rfl

theorem SyncIds.nodup_left {A B : List String} (h : SyncIds A B) : A.Nodup := by
  rw [List.nodup_iff_count_le_one]
  intro s
  by_cases hs : s ∈ A
  · have h1 : B.count s = 1 := h.1 s hs
    have hsB : s ∈ B := by
      rw [← List.count_pos_iff]
      omega
    exact (h.2 s hsB).le
  · simp [List.count_eq_zero.mpr hs]

theorem SyncIds.symm {A B : List String} (h : SyncIds A B) : SyncIds B A :=
  ⟨h.2, h.1⟩

theorem SyncIds.append {A B : List String} {x : String} (h : SyncIds A B)
    (hA : x ∉ A) (hB : x ∉ B) : SyncIds (A ++ [x]) (B ++ [x]) := by
  have step : ∀ {C D : List String}, (∀ s ∈ C, D.count s = 1) → x ∉ C →
      x ∉ D → ∀ s ∈ C ++ [x], (D ++ [x]).count s = 1 := by
    intro C D hCD hxC hxD s hs
    rw [List.count_append]
    rcases List.mem_append.mp hs with hsC | hsx
    · have hne : x ≠ s := fun e => hxC (e ▸ hsC)
      rw [hCD s hsC, List.count_singleton']
      simp [bne_iff_ne, hne, beq_eq_false_iff_ne.mpr (fun e => hne e.symm)]
    · have hx : s = x := by simpa using hsx
      subst hx
      simp [List.count_eq_zero.mpr hxD]
  exact ⟨step h.1 hA hB, step h.2 hB hA⟩

/-- Counting survives filtering-out a different id. -/
theorem count_filter_ne (l : List String) (s y : String) (h : s ≠ y) :
    (l.filter (fun t => t != y)).count s = l.count s := by
  induction l with
  | nil => rfl
  | cons a t ih =>
      by_cases ha : a = y
      · subst ha
        have hne : ¬ a = s := fun e => h e.symm
        simp [List.filter_cons, List.count_cons, ih,
          beq_eq_false_iff_ne.mpr h, hne]
      · simp [List.filter_cons, List.count_cons, ih, bne_iff_ne.mpr ha]

theorem SyncIds.filterNe {A B : List String} (y : String) (h : SyncIds A B) :
    SyncIds (A.filter (fun t => t != y)) (B.filter (fun t => t != y)) := by
  have step : ∀ {C D : List String}, (∀ s ∈ C, D.count s = 1) →
      ∀ s ∈ C.filter (fun t => t != y),
        (D.filter (fun t => t != y)).count s = 1 := by
    intro C D hCD s hs
    have hmem := List.mem_filter.mp hs
    have hne : s ≠ y := by simpa using hmem.2
    rw [count_filter_ne D s y hne]
    exact hCD s hmem.1
  exact ⟨step h.1, step h.2⟩

/-- Mapping the widget id over a filtered widget list equals filtering the
mapped id list. -/
theorem map_id_filter (ws : List Widget) (y : String) :
    (ws.filter (fun w => w.id != y)).map Widget.id =
      (ws.map Widget.id).filter (fun s => s != y) := by
  induction ws with
  | nil => rfl
  | cons w t ih =>
      by_cases hw : (w.id != y) = true
      · simp [List.filter_cons, hw, ih]
      · simp only [Bool.not_eq_true] at hw
        simp [List.filter_cons, hw, ih]

/-- Mapping the layout id over a filtered layout list equals filtering the
mapped id list. -/
theorem map_i_filter (ls : List LayoutItem) (y : String) :
    (ls.filter (fun l => l.i != y)).map LayoutItem.i =
      (ls.map LayoutItem.i).filter (fun s => s != y) := by
  induction ls with
  | nil => rfl
  | cons l t ih =>
      by_cases hl : (l.i != y) = true
      · simp [List.filter_cons, hl, ih]
      · simp only [Bool.not_eq_true] at hl
        simp [List.filter_cons, hl, ih]

theorem find?_append_some {α : Type} (p : α → Bool) {l₁ : List α}
    (l₂ : List α) {x : α} (h : l₁.find? p = some x) :
    (l₁ ++ l₂).find? p = some x := by
  induction l₁ with
  | nil => simp at h
  | cons a t ih =>
      rw [List.cons_append]
      cases hp : p a with
      | true => rw [List.find?_cons_of_pos _ hp] at h ⊢; exact h
      | false =>
          rw [List.find?_cons_of_neg _ (by simp [hp])] at h ⊢
          exact ih h

theorem find?_append_none {α : Type} (p : α → Bool) {l₁ : List α}
    (l₂ : List α) (h : l₁.find? p = none) :
    (l₁ ++ l₂).find? p = l₂.find? p := by
  induction l₁ with
  | nil => simp
  | cons a t ih =>
      rw [List.cons_append]
      cases hp : p a with
      | true => rw [List.find?_cons_of_pos _ hp] at h; exact absurd h (by simp)
      | false =>
          rw [List.find?_cons_of_neg _ (by simp [hp])] at h ⊢
          exact ih h

/-- The keys of the old-to-new id map are exactly the config's widget
ids. -/
theorem widgetIdMapOf_keys (gen : Nat → String) :
    ∀ (ws : List Widget) (k : Nat),
      (widgetIdMapOf gen k ws).map Prod.fst = ws.map Widget.id := by
  intro ws
  induction ws with
  | nil => intro k; rfl
  | cons w t ih => intro k; simp [widgetIdMapOf, ih (k + 1)]

/-- The re-issued widgets carry exactly the fresh ids, in supply order. -/
theorem assignFreshIds_ids (gen : Nat → String) :
    ∀ (ws : List Widget) (k : Nat),
      (assignFreshIds gen k ws).map Widget.id =
        (List.range' k ws.length).map gen := by
  intro ws
  induction ws with
  | nil => intro k; rfl
  | cons w t ih => intro k; simp [assignFreshIds, List.range', ih (k + 1)]

/-- If an id occurs exactly once among the config's widget ids, the
old-to-new map sends it to the fresh id issued at its position. -/
theorem mapGet_widgetIdMapOf (gen : Nat → String) :
    ∀ (ws : List Widget) (k : Nat) (s : String),
      (ws.map Widget.id).count s = 1 →
      ∃ j, ∃ hj : j < ws.length, (ws.get ⟨j, hj⟩).id = s ∧
        mapGet (widgetIdMapOf gen k ws) s = some (gen (k + j)) := by
  intro ws
  induction ws with
  | nil => intro k s h; simp at h
  | cons w t ih =>
      intro k s h
      rw [List.map_cons, List.count_cons] at h
      by_cases hw : s = w.id
      · have hbs : (w.id == s) = true := beq_iff_eq.mpr hw.symm
        rw [hbs] at h
        simp at h
        have ht : (t.map Widget.id).count s = 0 := by omega
        refine ⟨0, Nat.succ_pos _, hw.symm, ?_⟩
        have hnone : (widgetIdMapOf gen (k + 1) t).reverse.find?
            (fun e => e.1 == s) = none := by
          rw [List.find?_eq_none]
          intro e he
          have he' : e ∈ widgetIdMapOf gen (k + 1) t := List.mem_reverse.mp he
          have hkey : e.1 ∈ t.map Widget.id := by
            rw [← widgetIdMapOf_keys gen t (k + 1)]
            exact List.mem_map_of_mem Prod.fst he'
          have : s ∉ t.map Widget.id := List.count_eq_zero.mp ht
          simp only [beq_iff_eq]
          exact fun e1s => this (e1s ▸ hkey)
        unfold mapGet
        rw [show (widgetIdMapOf gen k (w :: t)).reverse =
            (widgetIdMapOf gen (k + 1) t).reverse ++ [(w.id, gen k)] by
          simp [widgetIdMapOf]]
        rw [find?_append_none _ _ hnone]
        simp [hbs]
      · have hbs : (w.id == s) = false :=
          beq_eq_false_iff_ne.mpr (fun e => hw e.symm)
        rw [hbs] at h
        simp at h
        have ht : (t.map Widget.id).count s = 1 := by omega
        obtain ⟨j, hj, hid, hmg⟩ := ih (k + 1) s ht
        refine ⟨j + 1, Nat.succ_lt_succ hj, hid, ?_⟩
        unfold mapGet at hmg ⊢
        obtain ⟨e, he, hesnd⟩ :
            ∃ e, (widgetIdMapOf gen (k + 1) t).reverse.find?
                (fun e => e.1 == s) = some e ∧ e.2 = gen (k + 1 + j) := by
          cases hfe : (widgetIdMapOf gen (k + 1) t).reverse.find?
              (fun e => e.1 == s) with
          | none => rw [hfe] at hmg; simp at hmg
          | some e =>
              rw [hfe] at hmg
              simp only [Option.map_some'] at hmg
              exact ⟨e, rfl, by simpa using hmg⟩
        rw [show (widgetIdMapOf gen k (w :: t)).reverse =
            (widgetIdMapOf gen (k + 1) t).reverse ++ [(w.id, gen k)] by
          simp [widgetIdMapOf]]
        rw [find?_append_some _ _ he]
        simp only [Option.map_some']
        rw [hesnd]
        rw [(by omega : k + 1 + j = k + (j + 1))]

/-- Rewriting the layout ids through a function commutes with projecting
them. -/
theorem map_i_update (ls : List LayoutItem) (f : String → String) :
    ((ls.map (fun item => { item with i := f item.i })).map LayoutItem.i) =
      (ls.map LayoutItem.i).map f := by
  simp [List.map_map]

/-- Core of the import case: if the config's widget ids and layout ids are
in lockstep, the fresh ids are pairwise distinct on the indices drawn, and
none of them is the falsy empty string, then the re-issued widgets and the
rewritten layout are in lockstep as well. -/
theorem syncIds_import (gen : Nat → String) (ws : List Widget)
    (ls : List LayoutItem)
    (hsync : SyncIds (ws.map Widget.id) (ls.map LayoutItem.i))
    (hinj : ∀ j k, j < ws.length → k < ws.length → gen j = gen k → j = k)
    (hne : ∀ k, k < ws.length → gen k ≠ "") :
    SyncIds ((assignFreshIds gen 0 ws).map Widget.id)
      ((ls.map (fun item =>
          { item with
            i := jsOrElse (mapGet (widgetIdMapOf gen 0 ws) item.i) item.i
          })).map LayoutItem.i) := by
  rw [assignFreshIds_ids gen ws 0,
    map_i_update ls
      (fun s => jsOrElse (mapGet (widgetIdMapOf gen 0 ws) s) s)]
  have hAnodup : (ws.map Widget.id).Nodup := hsync.nodup_left
  have hlenA : (ws.map Widget.id).length = ws.length := List.length_map ws Widget.id
  have hAget : ∀ j (hj : j < ws.length),
      (ws.map Widget.id).get ⟨j, by omega⟩ = (ws.get ⟨j, hj⟩).id := by
    intro j hj
    simp [List.get_eq_getElem, List.getElem_map]
  have posUnique : ∀ a b (ha : a < ws.length) (hb : b < ws.length),
      (ws.get ⟨a, ha⟩).id = (ws.get ⟨b, hb⟩).id → a = b := by
    intro a b ha hb he
    have he' : (ws.map Widget.id).get ⟨a, by omega⟩ =
        (ws.map Widget.id).get ⟨b, by omega⟩ := by
      rw [hAget a ha, hAget b hb]; exact he
    have := (List.Nodup.get_inj_iff hAnodup).mp he'
    simpa using congrArg Fin.val this
  have key : ∀ s ∈ ls.map LayoutItem.i, ∃ j, ∃ hj : j < ws.length,
      (ws.get ⟨j, hj⟩).id = s ∧
      jsOrElse (mapGet (widgetIdMapOf gen 0 ws) s) s = gen j := by
    intro s hs
    have hcount : (ws.map Widget.id).count s = 1 := hsync.2 s hs
    obtain ⟨j, hj, hid, hmg⟩ := mapGet_widgetIdMapOf gen ws 0 s hcount
    rw [Nat.zero_add] at hmg
    refine ⟨j, hj, hid, ?_⟩
    rw [hmg]
    simp [jsOrElse, beq_eq_false_iff_ne.mpr (hne j hj)]
  constructor
  · intro t ht
    obtain ⟨m, hm, rfl⟩ := List.mem_map.mp ht
    obtain ⟨i, hi, hei⟩ := List.mem_range'.mp hm
    have hmn : m < ws.length := by omega
    rw [List.count_eq_countP, List.countP_map]
    have hcongr : ∀ s ∈ ls.map LayoutItem.i,
        ((jsOrElse (mapGet (widgetIdMapOf gen 0 ws) s) s == gen m) = true ↔
          (s == (ws.get ⟨m, hmn⟩).id) = true) := by
      intro s hs
      obtain ⟨j, hj, hid, hφ⟩ := key s hs
      rw [hφ]
      simp only [beq_iff_eq]
      constructor
      · intro he
        have : j = m := hinj j m hj hmn he
        subst this
        exact hid.symm
      · intro he
        have hjm : j = m := posUnique j m hj hmn (by rw [hid, he])
        subst hjm
        rfl
    calc (ls.map LayoutItem.i).countP
          (fun s => jsOrElse (mapGet (widgetIdMapOf gen 0 ws) s) s == gen m)
        = (ls.map LayoutItem.i).countP
            (fun s => s == (ws.get ⟨m, hmn⟩).id) :=
          List.countP_congr hcongr
      _ = (ls.map LayoutItem.i).count ((ws.get ⟨m, hmn⟩).id) :=
          (List.count_eq_countP _ _).symm
      _ = 1 := by
          refine hsync.1 _ ?_
          rw [← hAget m hmn]
          exact List.get_mem (ws.map Widget.id) _ _
  · intro t ht
    obtain ⟨s, hs, rfl⟩ := List.mem_map.mp ht
    obtain ⟨j, hj, hid, hφ⟩ := key s hs
    simp only [hφ]
    have hnod : ((List.range' 0 ws.length).map gen).Nodup := by
      refine List.Nodup.map_on ?_ (List.nodup_range' 0 ws.length 1 Nat.one_pos)
      intro x hx y hy he
      obtain ⟨i, hi, hei⟩ := List.mem_range'.mp hx
      obtain ⟨i', hi', hei'⟩ := List.mem_range'.mp hy
      exact hinj x y (by omega) (by omega) he
    have hmem : gen j ∈ (List.range' 0 ws.length).map gen :=
      List.mem_map_of_mem gen (List.mem_range'.mpr ⟨j, hj, by omega⟩)
    exact List.count_eq_one_of_mem hnod hmem

/-- Counterexample to C1.  `importPage` validates only that `title` is
non-empty and `widgets`/`layout` are arrays; a config whose layout holds
an entry `i = "a"` with no matching widget passes validation, its `i` is
passed through the id map unchanged, and the appended page has an orphan
layout entry — the lockstep invariant fails after an `importPage`. -/
theorem import_can_break_lockstep :
    (∀ p ∈ ([] : List CustomPage), InSync p) ∧
      (importPage (fun k => "n" ++ toString k) "p1"
          ⟨.str "T", some [], some [⟨"a", 0, .at 0, 6, 4⟩]⟩
          ⟨[], []⟩).2 = none ∧
      ∃ p ∈ (importPage (fun k => "n" ++ toString k) "p1"
          ⟨.str "T", some [], some [⟨"a", 0, .at 0, 6, 4⟩]⟩
          ⟨[], []⟩).1.pages, ¬ InSync p := by
  refine ⟨by simp, by decide, by decide⟩

/-- C1 as amended.  The lockstep invariant is preserved by
`addWidgetToPage` and `copyWidget` (for a generated id fresh for the
store), unconditionally by `removeWidgetFromPage`, and by `importPage`
*provided* the imported config's widgets and layout are themselves in
one-to-one correspondence and the freshly drawn ids are pairwise distinct
and non-empty; for a config violating that correspondence the new page can
violate the invariant (see the counterexample). -/
theorem lockstep_invariant_preserved
    (pages : List CustomPage) (pid widgetId newWidgetId : String)
    (type : WidgetType) (title : String) (isHeart : Bool)
    (hpre : ∀ p ∈ pages, InSync p) :
    (FreshId widgetId pages →
      ∀ p ∈ addWidgetToPage widgetId pid type title isHeart pages, InSync p) ∧
      (∀ p ∈ removeWidgetFromPage pid widgetId pages, InSync p) ∧
      (FreshId newWidgetId pages →
        ∀ p ∈ copyWidget newWidgetId pid widgetId pages, InSync p) ∧
      (∀ (gen : Nat → String) (newPageId t : String) (ws : List Widget)
          (ls : List LayoutItem) (storage : LocalStorage),
        SyncIds (ws.map Widget.id) (ls.map LayoutItem.i) →
        (∀ j k, j < ws.length → k < ws.length → gen j = gen k → j = k) →
        (∀ k, k < ws.length → gen k ≠ "") →
        ∀ p ∈ (importPage gen newPageId ⟨.str t, some ws, some ls⟩
            ⟨pages, storage⟩).1.pages, InSync p) := by
  refine ⟨?_, ?_, ?_, ?_⟩
  · intro hfresh p hp
    obtain ⟨q, hq, rfl⟩ := List.mem_map.mp hp
    by_cases hid : (q.id == pid) = true
    · rw [if_pos hid]
      rw [inSync_iff_syncIds]
      simp only [List.map_append, List.map_cons, List.map_nil]
      exact SyncIds.append ((inSync_iff_syncIds q).mp (hpre q hq))
        (hfresh q hq).1 (hfresh q hq).2
    · rw [if_neg hid]
      exact hpre q hq
  · intro p hp
    obtain ⟨q, hq, rfl⟩ := List.mem_map.mp hp
    by_cases hid : (q.id == pid) = true
    · rw [if_pos hid]
      rw [inSync_iff_syncIds]
      simp only [map_id_filter, map_i_filter]
      exact SyncIds.filterNe widgetId ((inSync_iff_syncIds q).mp (hpre q hq))
    · rw [if_neg hid]
      exact hpre q hq
  · intro hfresh p hp
    obtain ⟨q, hq, rfl⟩ := List.mem_map.mp hp
    by_cases hid : (q.id == pid) = true
    · rw [if_pos hid]
      cases hfind : q.widgets.find? (fun w => w.id == widgetId) with
      | none => exact hpre q hq
      | some w =>
          have hnew : InSync
              { q with
                widgets := q.widgets ++ [{ w with id := newWidgetId }],
                layout := q.layout ++
                  [{ i := newWidgetId,
                     x := ((q.layout.length * 2) % 12 : Nat),
                     y := .bottom, w := 6, h := 4 }] } := by
            rw [inSync_iff_syncIds]
            simp only [List.map_append, List.map_cons, List.map_nil]
            exact SyncIds.append ((inSync_iff_syncIds q).mp (hpre q hq))
              (hfresh q hq).1 (hfresh q hq).2
          exact hnew
    · rw [if_neg hid]
      exact hpre q hq
  · intro gen newPageId t ws ls storage hsync hinj hne p hp
    by_cases ht : (t == "") = true
    · simp only [importPage, jsFalsy, ht, if_pos] at hp
      exact hpre p hp
    · simp only [importPage, jsFalsy, ht, Bool.false_eq_true, if_false] at hp
      rcases List.mem_append.mp hp with hold | hnew
      · exact hpre p hold
      · have hp' := List.mem_singleton.mp hnew
        subst hp'
        rw [inSync_iff_syncIds]
        exact syncIds_import gen ws ls hsync hinj hne

/-- Witness for the amended C1 at a concrete store and operation. -/
theorem lockstep_invariant_preserved_witness :
    InSync
      { id := "p1", title := "P",
        widgets := pageQ.widgets ++
          [{ id := "w9", title := "T", type := .text, isHeart := some false,
             x := some 2, y := some .bottom, w := some 6, h := some 4 }],
        layout := pageQ.layout ++ [⟨"w9", 2, .bottom, 6, 4⟩] } :=
  (lockstep_invariant_preserved [pageQ] "p1" "w9" "n" .text "T" false
    (by decide)).1 (by decide) _ (by decide)

end Dashboard
